import Mathlib

/-!
Verification of the reinforcement-learning agent in
src/Agent.py and src/DeepQAgent.py (DataMiningFinalProject).

The Python code is shallowly embedded: telemetry dictionaries become the
structure Info, Python floats become exact rationals, fallible operations
(KeyError, IndexError, AttributeError, ZeroDivisionError) become Option,
and external collaborators (the neural network, the environment, the
random number generator) become explicit parameters.
-/

namespace SFDQ

/-- One telemetry mapping (the info dictionary handed to the agent each
decision frame), with the fields read by DeepQAgent.prepareNetworkInputs,
DeepQAgent.isActionableState.  Numeric telemetry is modelled as rationals,
categorical codes and the round timer as naturals. -/
structure Info where
  enemy_health : ℚ
  enemy_x_position : ℚ
  enemy_y_position : ℚ
  enemy_status : ℕ
  enemy_character : ℕ
  health : ℚ
  x_position : ℚ
  y_position : ℚ
  status : ℕ
  round_timer : ℕ
deriving DecidableEq

/-- DeepQAgent.stateIndices: the dictionary mapping the 9 known status
codes to their one-hot index (DeepQAgent.py line 24).  A lookup of an
absent key is a Python KeyError, hence Option. -/
def stateIndices (code : ℕ) : Option ℕ :=
  if code = 512 then some 0
  else if code = 514 then some 1
  else if code = 516 then some 2
  else if code = 518 then some 3
  else if code = 520 then some 4
  else if code = 522 then some 5
  else if code = 524 then some 6
  else if code = 526 then some 7
  else if code = 532 then some 8
  else none

/-- DeepQAgent.doneKeys (DeepQAgent.py line 25). -/
def doneKeys : List ℕ := [0, 528, 530, 1024, 1026, 1028, 1030, 1032]

/-- One status one-hot segment, exactly as built by
DeepQAgent.prepareNetworkInputs lines 228-229 (and 243-244): a list of 9
zeros, and when the code is not in doneKeys the entry at
stateIndices[code] is set to 1 (a KeyError, i.e. none, when the code is
also absent from stateIndices). -/
def oneHotStatus (code : ℕ) : Option (List ℚ) :=
  if code ∈ doneKeys then some (List.replicate 9 0)
  else
    match stateIndices code with
    | some i => some ((List.replicate 9 0).set i 1)
    | none => none

/-- The enemy-character one-hot segment (DeepQAgent.py lines 233-234):
a list of 8 zeros with entry c set to 1; an IndexError (none) when
c is out of range. -/
def oneHotCharacter (c : ℕ) : Option (List ℚ) :=
  if c < 8 then some ((List.replicate 8 0).set c 1) else none

/-- DeepQAgent.prepareNetworkInputs (DeepQAgent.py lines 202-248): builds
the feature vector in source order (enemy scalars, enemy-status one-hot,
enemy-character one-hot, player scalars, player-status one-hot) and then
reshapes it to the configured stateSize, which fails unless the length
matches. -/
def prepareNetworkInputs (stateSize : ℕ) (step : Info) : Option (List ℚ) :=
  match oneHotStatus step.enemy_status with
  | none => none
  | some enemyState =>
    match oneHotCharacter step.enemy_character with
    | none => none
    | some enemyChar =>
      match oneHotStatus step.status with
      | none => none
      | some playerState =>
        let fv := [step.enemy_health, step.enemy_x_position, step.enemy_y_position]
            ++ enemyState ++ enemyChar
            ++ [step.health, step.x_position, step.y_position] ++ playerState
        if fv.length = stateSize then some fv else none

lemma oneHotStatus_length {code : ℕ} {l : List ℚ} (h : oneHotStatus code = some l) :
    l.length = 9 := by
  unfold oneHotStatus at h
  split at h
  · rw [Option.some.injEq] at h
    rw [← h]
    rfl
  · cases hm : stateIndices code with
    | none => rw [hm] at h; cases h
    | some i =>
        rw [hm, Option.some.injEq] at h
        rw [← h]
        simp
lemma oneHotCharacter_length {c : ℕ} {l : List ℚ} (h : oneHotCharacter c = some l) :
    l.length = 8 := by
  unfold oneHotCharacter at h
  split at h
  · rw [Option.some.injEq] at h
    rw [← h]
    simp
  · cases h

/-- Claim C6: for every telemetry mapping whose categorical codes encode
successfully, the feature encoder at the default stateSize 32 returns
exactly the concatenation
[enemy_health, enemy_x, enemy_y] ++ enemy-status one-hot (9) ++
enemy-character one-hot (8) ++ [health, x, y] ++ player-status one-hot (9),
and every vector it returns has length 32. -/
theorem C6_feature_vector_layout (step : Info) (es ec ps : List ℚ)
    (h1 : oneHotStatus step.enemy_status = some es)
    (h2 : oneHotCharacter step.enemy_character = some ec)
    (h3 : oneHotStatus step.status = some ps) :
    prepareNetworkInputs 32 step =
      some ([step.enemy_health, step.enemy_x_position, step.enemy_y_position]
        ++ es ++ ec
        ++ [step.health, step.x_position, step.y_position] ++ ps)
    ∧ ∀ v, prepareNetworkInputs 32 step = some v → v.length = 32 := by
  have hes := oneHotStatus_length h1
  have hec := oneHotCharacter_length h2
  have hps := oneHotStatus_length h3
  have hlen : ([step.enemy_health, step.enemy_x_position, step.enemy_y_position]
      ++ es ++ ec
      ++ [step.health, step.x_position, step.y_position] ++ ps).length = 32 := by
    simp [hes, hec, hps]
  constructor
  · simp only [prepareNetworkInputs, h1, h2, h3]
    rw [if_pos hlen]
  · intro v hv
    simp only [prepareNetworkInputs, h1, h2, h3] at hv
    rw [if_pos hlen, Option.some.injEq] at hv
    rw [← hv]
    exact hlen

/-- A concrete telemetry mapping with all categorical codes valid. -/
def goodInfo : Info :=
  { enemy_health := 100, enemy_x_position := 5, enemy_y_position := 6
    enemy_status := 512, enemy_character := 0
    health := 90, x_position := 1, y_position := 2
    status := 514, round_timer := 1000 }

theorem C6_feature_vector_layout_witness :
    oneHotStatus goodInfo.enemy_status = some [1, 0, 0, 0, 0, 0, 0, 0, 0]
    ∧ prepareNetworkInputs 32 goodInfo =
      some ([(100 : ℚ), 5, 6] ++ [1, 0, 0, 0, 0, 0, 0, 0, 0]
        ++ [1, 0, 0, 0, 0, 0, 0, 0] ++ [90, 1, 2] ++ [0, 1, 0, 0, 0, 0, 0, 0, 0]) :=
  ⟨by decide,
    (C6_feature_vector_layout goodInfo
      [1, 0, 0, 0, 0, 0, 0, 0, 0] [1, 0, 0, 0, 0, 0, 0, 0] [0, 1, 0, 0, 0, 0, 0, 0, 0]
      (by decide) (by decide) (by decide)).1⟩

/-- A telemetry mapping whose player status code 1 is outside the known
set of 9 codes and also outside doneKeys. -/
def badInfo : Info :=
  { goodInfo with status := 1 }

/-- Claim C2, counterexample: the status code 1 of badInfo is outside the
known set of 9 codes, yet the feature encoder does not return normally:
the lookup stateIndices[1] is a KeyError (none), because the guard on
lines 243-244 only skips codes listed in doneKeys. -/
theorem C2_unknown_status_counterexample :
    badInfo.status ∉ [512, 514, 516, 518, 520, 522, 524, 526, 532]
    ∧ prepareNetworkInputs 32 badInfo = none := by
  decide

/-- Claim C2, amended: an unknown status code yields the all-zero one-hot
segment exactly when it belongs to the doneKeys sentinel list; a code
outside both stateIndices and doneKeys makes the status one-hot (and with
it the whole feature encoder) fail with a key lookup error instead of
returning an all-zero segment. -/
theorem C2_unknown_status_amended (c : ℕ) (step : Info) :
    (c ∈ doneKeys → oneHotStatus c = some (List.replicate 9 0))
    ∧ (stateIndices c = none → c ∉ doneKeys → oneHotStatus c = none)
    ∧ (stateIndices step.status = none → step.status ∉ doneKeys →
        prepareNetworkInputs 32 step = none) := by
  refine ⟨?_, ?_, ?_⟩
  · intro h
    simp [oneHotStatus, h]
  · intro h1 h2
    simp [oneHotStatus, h1, h2]
  · intro h1 h2
    have hp : oneHotStatus step.status = none := by simp [oneHotStatus, h1, h2]
    unfold prepareNetworkInputs
    split
    · rfl
    · split
      · rfl
      · rw [hp]

theorem C2_unknown_status_amended_witness :
    ((528 : ℕ) ∈ doneKeys ∧ oneHotStatus 528 = some (List.replicate 9 0))
    ∧ (stateIndices badInfo.status = none ∧ badInfo.status ∉ doneKeys
        ∧ prepareNetworkInputs 32 badInfo = none) :=
  ⟨⟨by decide, (C2_unknown_status_amended 528 badInfo).1 (by decide)⟩,
   ⟨by decide, by decide,
    (C2_unknown_status_amended 528 badInfo).2.2 (by decide) (by decide)⟩⟩

/-- DeepQAgent.EPSILON_MIN (DeepQAgent.py line 18). -/
def EPSILON_MIN : ℚ := 1 / 10

/-- DeepQAgent.DEFAULT_EPSILON_DECAY (DeepQAgent.py line 19). -/
def DEFAULT_EPSILON_DECAY : ℚ := 999 / 1000

/-- The post-pass epsilon update at DeepQAgent.py line 275: decay
multiplicatively only when epsilon is strictly above the floor. -/
def decayEpsilon (eps : ℚ) : ℚ :=
  if EPSILON_MIN < eps then eps * DEFAULT_EPSILON_DECAY else eps

/-- Epsilon after n training passes, starting from the default initial
epsilon 1 and applying the line-275 update once per pass. -/
def epsAfter : ℕ → ℚ
  | 0 => 1
  | n + 1 => decayEpsilon (epsAfter n)

lemma decay_pow_gt {n : ℕ} (h : (1000 : ℕ) ^ n < 10 * 999 ^ n) :
    EPSILON_MIN < DEFAULT_EPSILON_DECAY ^ n := by
  unfold EPSILON_MIN DEFAULT_EPSILON_DECAY
  rw [div_pow, div_lt_div_iff₀ (by norm_num) (by positivity), one_mul, mul_comm]
  exact_mod_cast h

lemma decay_pow_lt {n : ℕ} (h : 10 * (999 : ℕ) ^ n < 1000 ^ n) :
    DEFAULT_EPSILON_DECAY ^ n < EPSILON_MIN := by
  unfold EPSILON_MIN DEFAULT_EPSILON_DECAY
  rw [div_pow, div_lt_div_iff₀ (by positivity) (by norm_num), one_mul, mul_comm]
  exact_mod_cast h

lemma floor_cross_lower : (1000 : ℕ) ^ 2301 < 10 * 999 ^ 2301 := by norm_num

lemma floor_cross_upper : 10 * (999 : ℕ) ^ 2302 < 1000 ^ 2302 := by norm_num

lemma decay_pow_antitone {m n : ℕ} (h : m ≤ n) :
    DEFAULT_EPSILON_DECAY ^ n ≤ DEFAULT_EPSILON_DECAY ^ m :=
  pow_le_pow_of_le_one (by norm_num [DEFAULT_EPSILON_DECAY])
    (by norm_num [DEFAULT_EPSILON_DECAY]) h

/-- Closed form for the epsilon schedule: the decay applies on each of the
first 2302 passes (pass 2302 carries epsilon strictly below the floor,
because the guard compares the pre-decay value) and never afterwards. -/
lemma epsAfter_closed_form (n : ℕ) :
    epsAfter n = DEFAULT_EPSILON_DECAY ^ (min n 2302) := by
  induction n with
  | zero => simp [epsAfter]
  | succ k ih =>
    by_cases hk : k < 2302
    · have hmink : min k 2302 = k := by omega
      have hminks : min (k + 1) 2302 = k + 1 := by omega
      have hgt : EPSILON_MIN < DEFAULT_EPSILON_DECAY ^ k :=
        lt_of_lt_of_le (decay_pow_gt floor_cross_lower) (decay_pow_antitone (by omega))
      rw [hminks]
      show decayEpsilon (epsAfter k) = _
      rw [ih, hmink, decayEpsilon, if_pos hgt, ← pow_succ]
    · have hmink : min k 2302 = 2302 := by omega
      have hminks : min (k + 1) 2302 = 2302 := by omega
      have hlt : DEFAULT_EPSILON_DECAY ^ 2302 < EPSILON_MIN :=
        decay_pow_lt floor_cross_upper
      rw [hminks]
      show decayEpsilon (epsAfter k) = _
      rw [ih, hmink, decayEpsilon, if_neg (not_lt.mpr hlt.le)]

/-- Claim C3, counterexample: after 2302 passes from epsilon 1 the value
is strictly below the 0.1 floor (the guard at line 275 compares the
pre-decay value, so the pass crossing the floor decays one step past it),
hence epsilon does not equal max(0.1, 0.999^N) at N = 2302. -/
theorem C3_epsilon_decay_counterexample :
    epsAfter 2302 < EPSILON_MIN
    ∧ epsAfter 2302 ≠ max EPSILON_MIN (DEFAULT_EPSILON_DECAY ^ 2302) := by
  have he : epsAfter 2302 = DEFAULT_EPSILON_DECAY ^ 2302 := by
    rw [epsAfter_closed_form, min_self]
  have hlt : DEFAULT_EPSILON_DECAY ^ 2302 < EPSILON_MIN :=
    decay_pow_lt floor_cross_upper
  refine ⟨by rw [he]; exact hlt, ?_⟩
  rw [he, max_eq_left hlt.le]
  exact ne_of_lt hlt

/-- Claim C3, amended: starting from epsilon 1 with decay 0.999 and floor
0.1, after N passes epsilon equals 0.999 ^ min(N, 2302): it equals
0.999 ^ N up to pass 2301, decays once past the floor on pass 2302, and is
left unchanged by every later pass; moreover a pass performed when epsilon
is at or below the floor never changes epsilon. -/
theorem C3_epsilon_decay_amended :
    (∀ n : ℕ, epsAfter n = DEFAULT_EPSILON_DECAY ^ (min n 2302))
    ∧ ∀ eps : ℚ, eps ≤ EPSILON_MIN → decayEpsilon eps = eps := by
  refine ⟨epsAfter_closed_form, ?_⟩
  intro eps h
  rw [decayEpsilon, if_neg (not_lt.mpr h)]

theorem C3_epsilon_decay_amended_witness :
    epsAfter 3 = DEFAULT_EPSILON_DECAY ^ 3
    ∧ ((1 : ℚ) / 20 ≤ EPSILON_MIN ∧ decayEpsilon (1 / 20) = 1 / 20) := by
  refine ⟨?_, by norm_num [EPSILON_MIN],
    C3_epsilon_decay_amended.2 (1 / 20) (by norm_num [EPSILON_MIN])⟩
  have h := C3_epsilon_decay_amended.1 3
  rwa [show min 3 2302 = 3 by norm_num] at h

/-- Agent.MAX_DATA_LENGTH (Agent.py line 21): the capacity of the bounded
memory deque. -/
def MAX_DATA_LENGTH : ℕ := 50000

/-- One recorded decision step: the 7-tuple appended by Agent.recordStep
(Agent.py line 138).  The display images are opaque to training and are
modelled by bare naturals. -/
structure Transition where
  observation : ℕ
  state : Info
  action : ℕ
  reward : ℚ
  nextObservation : ℕ
  nextState : Info
  done : Bool
deriving DecidableEq

/-- Appending to the bounded deque self.memory created with
maxlen = MAX_DATA_LENGTH (Agent.py line 92): a full deque first discards
its oldest entry. -/
def dequeAppend {α : Type} (cap : ℕ) (buf : List α) (x : α) : List α :=
  if buf.length < cap then buf ++ [x] else buf.drop 1 ++ [x]

/-- The buffer contents after appending each element of xs in order to an
initially empty bounded deque. -/
def fillBuffer {α : Type} (cap : ℕ) (xs : List α) : List α :=
  xs.foldl (dequeAppend cap) []

lemma fillBuffer_append {α : Type} (cap : ℕ) (xs : List α) (x : α) :
    fillBuffer cap (xs ++ [x]) = dequeAppend cap (fillBuffer cap xs) x := by
  simp [fillBuffer, List.foldl_append]

lemma fillBuffer_eq_drop {α : Type} (cap : ℕ) (hcap : 0 < cap) (xs : List α) :
    fillBuffer cap xs = xs.drop (xs.length - cap) := by
  induction xs using List.reverseRecOn with
  | nil => simp [fillBuffer]
  | append_singleton xs x ih =>
    rw [fillBuffer_append, ih, dequeAppend]
    have hlen : (xs.drop (xs.length - cap)).length = xs.length - (xs.length - cap) :=
      List.length_drop _ _
    by_cases hc : xs.length < cap
    · have h1 : (xs ++ [x]).length - cap = 0 := by
        simp only [List.length_append, List.length_singleton]
        omega
      rw [if_pos (by omega), h1]
      have h0 : xs.length - cap = 0 := by omega
      rw [h0]
      simp
    · have h2 : (xs ++ [x]).length - cap = xs.length - cap + 1 := by
        simp only [List.length_append, List.length_singleton]
        omega
      rw [if_neg (by omega), List.drop_drop, h2,
        List.drop_append_of_le_length (by omega)]

/-- Claim C4: for every sequence of appended transitions the bounded
memory never exceeds the 50000 capacity, and its contents are exactly the
most recent min(total, 50000) appends in insertion order — so an append at
capacity evicts exactly the oldest entry. -/
theorem C4_buffer_fifo_bound (xs : List Transition) :
    (fillBuffer MAX_DATA_LENGTH xs).length ≤ MAX_DATA_LENGTH
    ∧ fillBuffer MAX_DATA_LENGTH xs = xs.drop (xs.length - MAX_DATA_LENGTH) := by
  have h := fillBuffer_eq_drop MAX_DATA_LENGTH (by norm_num [MAX_DATA_LENGTH]) xs
  refine ⟨?_, h⟩
  rw [h, List.length_drop]
  omega

/-- numpy.amax over a Q-value list: the maximum of its entries (0 on the
empty list, where numpy would instead raise). -/
def amax : List ℚ → ℚ
  | [] => 0
  | x :: xs => xs.foldl max x

/-- One prepared training record: the [state features, action, reward,
done, next state features] row built by DeepQAgent.prepareMemoryForTraining
(DeepQAgent.py lines 191-198). -/
structure TrainTransition where
  state : List ℚ
  action : ℕ
  reward : ℚ
  done : Bool
  nextState : List ℚ
deriving DecidableEq

/-- The Bellman target computed at DeepQAgent.py lines 266-271: the plain
reward on terminal transitions, otherwise reward plus gamma times the
maximum predicted next-state action value. -/
def computeTarget (gamma reward : ℚ) (done : Bool) (predictNext : List ℚ) : ℚ :=
  if done then reward else reward + gamma * amax predictNext

/-- The fitted target vector of DeepQAgent.py lines 267-272: the model's
prediction for the state with the taken action's entry overwritten by the
Bellman target.  Both predictions use the same current model m. -/
def fittedTarget {M : Type} (predict : M → List ℚ → List ℚ) (gamma : ℚ)
    (m : M) (t : TrainTransition) : List ℚ :=
  (predict m t.state).set t.action
    (computeTarget gamma t.reward t.done (predict m t.nextState))

/-- Claim C1: in the fitted target vector, the taken action's entry is
exactly the reward when done, and reward + gamma * max of the current
model's next-state prediction otherwise; every other entry keeps the
model's prediction for the state, and the vector keeps its length. -/
theorem C1_bellman_target {M : Type} (predict : M → List ℚ → List ℚ) (gamma : ℚ)
    (m : M) (t : TrainTransition) (h : t.action < (predict m t.state).length) :
    (fittedTarget predict gamma m t)[t.action]? =
      some (if t.done then t.reward
        else t.reward + gamma * amax (predict m t.nextState))
    ∧ (∀ i : ℕ, i ≠ t.action →
        (fittedTarget predict gamma m t)[i]? = (predict m t.state)[i]?)
    ∧ (fittedTarget predict gamma m t).length = (predict m t.state).length := by
  refine ⟨?_, ?_, ?_⟩
  · rw [fittedTarget, List.getElem?_set_self h]
    rfl
  · intro i hi
    rw [fittedTarget, List.getElem?_set_ne (Ne.symm hi)]
  · rw [fittedTarget, List.length_set]

/-- A two-action approximator used as a concrete collaborator in
witnesses. -/
def predW : Unit → List ℚ → List ℚ :=
  fun _ s => if s = [(1 : ℚ)] then [5, 7] else [0, 2]

/-- A concrete non-terminal transition with reward 1 whose next-state
prediction has maximum 2 (the spec's 2.96 example at gamma 0.98). -/
def tW : TrainTransition :=
  { state := [1], action := 0, reward := 1, done := false, nextState := [3] }

theorem C1_bellman_target_witness :
    tW.action < (predW () tW.state).length
    ∧ (fittedTarget predW (98 / 100) () tW)[tW.action]? =
        some (if tW.done then tW.reward
          else tW.reward + (98 / 100) * amax (predW () tW.nextState))
    ∧ (if tW.done then tW.reward
        else tW.reward + (98 / 100) * amax (predW () tW.nextState)) = 296 / 100 :=
  ⟨by decide, (C1_bellman_target predW (98 / 100) () tW (by decide)).1, by
    norm_num [tW, predW, amax]⟩

/-- One fitting step of the training loop body (DeepQAgent.py lines
266-273), threading the model and the loss history.  The fit collaborator
is the external approximator's gradient step, returning the updated model
and the step's scalar loss.  Modelled from the spec: the LossHistory
callback (its module is not among the source files; spec section 4.4)
appends one scalar loss to the per-episode history at each fitting step. -/
def trainStep {M : Type} (predict : M → List ℚ → List ℚ)
    (fit : M → List ℚ → List ℚ → M × ℚ) (gamma : ℚ)
    (acc : M × List ℚ) (t : TrainTransition) : M × List ℚ :=
  ((fit acc.1 t.state (fittedTarget predict gamma acc.1 t)).1,
    acc.2 ++ [(fit acc.1 t.state (fittedTarget predict gamma acc.1 t)).2])

/-- DeepQAgent.trainNetwork (DeepQAgent.py lines 250-276): clear the loss
history, walk the random re-sampling of the full data
(random.sample(data, len(data)), modelled by the sample parameter),
perform one fitting step per sampled record, then apply the post-pass
epsilon update of line 275.  Returns the updated model, the loss history
and the new epsilon. -/
def trainNetwork {M : Type} (predict : M → List ℚ → List ℚ)
    (fit : M → List ℚ → List ℚ → M × ℚ)
    (sample : List TrainTransition → List TrainTransition) (gamma : ℚ)
    (data : List TrainTransition) (model : M) (eps : ℚ) : M × List ℚ × ℚ :=
  ((sample data).foldl (trainStep predict fit gamma) (model, []) |>.1,
    (sample data).foldl (trainStep predict fit gamma) (model, []) |>.2,
    decayEpsilon eps)

/-- DeepQAgent.prepareMemoryForTraining (DeepQAgent.py lines 175-200):
encode each remembered step's state and next state into a training
record; a failing encoding propagates. -/
def prepareMemoryForTraining (stateSize : ℕ) :
    List Transition → Option (List TrainTransition)
  | [] => some []
  | step :: rest =>
    match prepareNetworkInputs stateSize step.state with
    | none => none
    | some s =>
      match prepareNetworkInputs stateSize step.nextState with
      | none => none
      | some s2 =>
        match prepareMemoryForTraining stateSize rest with
        | none => none
        | some tail =>
          some (⟨s, step.action, step.reward, step.done, s2⟩ :: tail)

lemma prepareMemoryForTraining_length {stateSize : ℕ} :
    ∀ {mem : List Transition} {data : List TrainTransition},
      prepareMemoryForTraining stateSize mem = some data → data.length = mem.length := by
  intro mem
  induction mem with
  | nil =>
    intro data h
    rw [prepareMemoryForTraining, Option.some.injEq] at h
    rw [← h]
    rfl
  | cons step rest ih =>
    intro data h
    rw [prepareMemoryForTraining] at h
    cases h1 : prepareNetworkInputs stateSize step.state with
    | none => rw [h1] at h; cases h
    | some s =>
      rw [h1] at h
      cases h2 : prepareNetworkInputs stateSize step.nextState with
      | none => rw [h2] at h; cases h
      | some s2 =>
        rw [h2] at h
        cases h3 : prepareMemoryForTraining stateSize rest with
        | none => rw [h3] at h; cases h
        | some tail =>
          rw [h3, Option.some.injEq] at h
          rw [← h, List.length_cons, List.length_cons, ih h3]

lemma trainStep_foldl_losses {M : Type} (predict : M → List ℚ → List ℚ)
    (fit : M → List ℚ → List ℚ → M × ℚ) (gamma : ℚ) :
    ∀ (xs : List TrainTransition) (acc : M × List ℚ),
      (xs.foldl (trainStep predict fit gamma) acc).2.length = acc.2.length + xs.length := by
  intro xs
  induction xs with
  | nil => intro acc; rfl
  | cons t ts ih =>
    intro acc
    rw [List.foldl_cons, ih]
    simp [trainStep]
    omega

/-- The mutable agent attributes the embedded methods touch: the bounded
memory, the lastAction attribute (none while never assigned, so that a
read of it is an AttributeError), epsilon, the model and the per-episode
loss history. -/
structure DQState (M : Type) where
  memory : List Transition
  lastAction : Option ℕ
  epsilon : ℚ
  model : M
  losses : List ℚ

/-- The attribute state right after construction: Agent.prepareForNextFight
gives an empty memory, the loss history is empty, and no code path of
either constructor assigns lastAction. -/
def initialState {M : Type} (model : M) (eps : ℚ) : DQState M :=
  { memory := [], lastAction := none, epsilon := eps, model := model, losses := [] }

/-- Agent.recordStep (Agent.py line 138): appends to the bounded memory
the 7-tuple holding self.lastAction; reading self.lastAction before any
assignment is an AttributeError (none). -/
def recordStep {M : Type} (st : DQState M) (observation : ℕ) (state : Info)
    (reward : ℚ) (nextObservation : ℕ) (nextState : Info) (done : Bool) :
    Option (DQState M) :=
  match st.lastAction with
  | none => none
  | some a =>
    some { st with memory := dequeAppend MAX_DATA_LENGTH st.memory (Transition.mk observation state a reward nextObservation nextState done) }

/-- The training-log value computed by Agent.saveModel line 174:
sum(losses) / len(losses), a ZeroDivisionError (none) on an empty loss
history.  The weight file and log file writes themselves are external
side effects. -/
def saveModelLog (losses : List ℚ) : Option ℚ :=
  if losses.length = 0 then none else some (losses.sum / (losses.length : ℚ))

/-- Agent.reviewFight (Agent.py lines 140-145): prepare the memory, run
one training pass, save the model (whose log computation can fail), then
clear the memory for the next fight. -/
def reviewFight {M : Type} (predict : M → List ℚ → List ℚ)
    (fit : M → List ℚ → List ℚ → M × ℚ)
    (sample : List TrainTransition → List TrainTransition)
    (gamma : ℚ) (stateSize : ℕ) (st : DQState M) : Option (DQState M) :=
  (prepareMemoryForTraining stateSize st.memory).bind (fun data =>
    (saveModelLog (trainNetwork predict fit sample gamma data st.model st.epsilon).2.1).map
      (fun _ =>
        { memory := [], lastAction := st.lastAction,
          epsilon := (trainNetwork predict fit sample gamma data st.model st.epsilon).2.2,
          model := (trainNetwork predict fit sample gamma data st.model st.epsilon).1,
          losses := (trainNetwork predict fit sample gamma data st.model st.epsilon).2.1 }))

/-- Claim C5: a training pass walks a permutation of the whole prepared
buffer (random.sample over the full length), issuing exactly one fitting
step per buffered transition — the loss history gains exactly
memory.length entries — and the review cycle empties the buffer. -/
theorem C5_full_pass_and_clear {M : Type} (predict : M → List ℚ → List ℚ)
    (fit : M → List ℚ → List ℚ → M × ℚ)
    (sample : List TrainTransition → List TrainTransition)
    (gamma : ℚ) (stateSize : ℕ) (st : DQState M) (data : List TrainTransition)
    (h1 : prepareMemoryForTraining stateSize st.memory = some data)
    (h2 : (sample data).Perm data)
    (h3 : st.memory ≠ []) :
    (trainNetwork predict fit sample gamma data st.model st.epsilon).2.1.length
      = st.memory.length
    ∧ (reviewFight predict fit sample gamma stateSize st).map (fun s => s.memory)
      = some [] := by
  have hlen : data.length = st.memory.length := prepareMemoryForTraining_length h1
  have hfits : (trainNetwork predict fit sample gamma data st.model st.epsilon).2.1.length
      = st.memory.length := by
    show ((sample data).foldl (trainStep predict fit gamma) (st.model, [])).2.length = _
    rw [trainStep_foldl_losses, h2.length_eq, hlen]
    simp
  refine ⟨hfits, ?_⟩
  have hne : (trainNetwork predict fit sample gamma data st.model st.epsilon).2.1.length ≠ 0 := by
    rw [hfits]
    simpa using h3
  have hs : saveModelLog (trainNetwork predict fit sample gamma data st.model st.epsilon).2.1
      = some ((trainNetwork predict fit sample gamma data st.model st.epsilon).2.1.sum /
          ((trainNetwork predict fit sample gamma data st.model st.epsilon).2.1.length : ℚ)) := by
    rw [saveModelLog, if_neg hne]
  simp [reviewFight, h1, hs]

/-- The concrete 3-transition memory of the spec's end-to-end example:
two non-terminal steps and one terminal step. -/
def memW : List Transition :=
  [⟨0, goodInfo, 0, 1, 0, goodInfo, false⟩,
   ⟨0, goodInfo, 1, 0, 0, goodInfo, false⟩,
   ⟨0, goodInfo, 0, 2, 0, goodInfo, true⟩]

/-- The feature vector of goodInfo at stateSize 32, written out. -/
def fvGood : List ℚ :=
  [100, 5, 6, 1, 0, 0, 0, 0, 0, 0, 0, 0, 1, 0, 0, 0, 0, 0, 0, 0,
   90, 1, 2, 0, 1, 0, 0, 0, 0, 0, 0, 0]

/-- The prepared training data of memW. -/
def dataW : List TrainTransition :=
  [⟨fvGood, 0, 1, false, fvGood⟩, ⟨fvGood, 1, 0, false, fvGood⟩,
   ⟨fvGood, 0, 2, true, fvGood⟩]

/-- A trivial fit collaborator reporting loss 0. -/
def fitW : Unit → List ℚ → List ℚ → Unit × ℚ := fun _ _ _ => ((), 0)

/-- An agent state carrying the 3-transition memory. -/
def stW : DQState Unit :=
  { memory := memW, lastAction := some 0, epsilon := 1, model := (), losses := [] }

theorem C5_full_pass_and_clear_witness :
    prepareMemoryForTraining 32 stW.memory = some dataW
    ∧ (id dataW).Perm dataW
    ∧ stW.memory ≠ []
    ∧ (trainNetwork predW fitW id 0 dataW stW.model stW.epsilon).2.1.length
        = stW.memory.length
    ∧ (reviewFight predW fitW id 0 32 stW).map (fun s => s.memory) = some [] := by
  have h1 : prepareMemoryForTraining 32 stW.memory = some dataW := by decide
  have h := C5_full_pass_and_clear predW fitW id 0 32 stW dataW h1
    (List.Perm.refl _) (by decide)
  exact ⟨h1, List.Perm.refl _, by decide, h.1, h.2⟩

/-- Claim C10: the persisted log value is the mean (sum divided by count)
of the episode's recorded losses, and an episode with zero fitting steps
— an empty loss history, as produced by training on an empty buffer —
makes the persistence step fail with a division by zero (none) instead of
logging a value. -/
theorem C10_mean_loss_divzero {M : Type} (predict : M → List ℚ → List ℚ)
    (fit : M → List ℚ → List ℚ → M × ℚ)
    (sample : List TrainTransition → List TrainTransition)
    (gamma : ℚ) (stateSize : ℕ) (st : DQState M) (ls : List ℚ)
    (hmem : st.memory = []) (hsample : sample [] = []) (hls : ls ≠ []) :
    saveModelLog [] = none
    ∧ reviewFight predict fit sample gamma stateSize st = none
    ∧ saveModelLog ls = some (ls.sum / (ls.length : ℚ)) := by
  refine ⟨rfl, ?_, ?_⟩
  · have hloss : (trainNetwork predict fit sample gamma [] st.model st.epsilon).2.1 = [] := by
      show ((sample []).foldl (trainStep predict fit gamma) (st.model, [])).2 = []
      rw [hsample]
      rfl
    have hdata : prepareMemoryForTraining stateSize ([] : List Transition) = some [] := rfl
    simp [reviewFight, hmem, hdata, hloss, saveModelLog]
  · rw [saveModelLog, if_neg (fun h => hls (List.length_eq_zero.mp h))]

/-- An agent state with an empty memory. -/
def stEmptyW : DQState Unit :=
  { memory := [], lastAction := some 0, epsilon := 1, model := (), losses := [] }

theorem C10_mean_loss_divzero_witness :
    saveModelLog [] = none
    ∧ reviewFight predW fitW id 0 32 stEmptyW = none
    ∧ saveModelLog [1, 2] = some ((3 : ℚ) / 2) := by
  have h := C10_mean_loss_divzero predW fitW id 0 32 stEmptyW [1, 2] rfl rfl (by decide)
  refine ⟨h.1, h.2.1, ?_⟩
  rw [h.2.2]
  norm_num

lemma foldl_max_init (xs : List ℚ) (b : ℚ) : b ≤ xs.foldl max b := by
  induction xs generalizing b with
  | nil => exact le_refl b
  | cons y ys ih => exact le_trans (le_max_left b y) (ih (max b y))

lemma foldl_max_le {xs : List ℚ} {x : ℚ} (h : x ∈ xs) (b : ℚ) : x ≤ xs.foldl max b := by
  induction xs generalizing b with
  | nil => cases h
  | cons y ys ih =>
    rcases List.mem_cons.mp h with rfl | hm
    · exact le_trans (le_max_right b x) (foldl_max_init ys (max b x))
    · exact ih hm (max b y)

lemma foldl_max_mem (xs : List ℚ) (b : ℚ) : xs.foldl max b = b ∨ xs.foldl max b ∈ xs := by
  induction xs generalizing b with
  | nil => exact Or.inl rfl
  | cons y ys ih =>
    rcases ih (max b y) with he | hm
    · rcases max_choice b y with hb | hy
      · exact Or.inl (by rw [List.foldl_cons, he, hb])
      · exact Or.inr (by rw [List.foldl_cons, he, hy]; exact List.mem_cons_self y ys)
    · exact Or.inr (List.mem_cons_of_mem y hm)

lemma le_amax {l : List ℚ} {x : ℚ} (h : x ∈ l) : x ≤ amax l := by
  cases l with
  | nil => cases h
  | cons y ys =>
    rw [amax]
    rcases List.mem_cons.mp h with rfl | hm
    · exact foldl_max_init ys x
    · exact foldl_max_le hm y

lemma amax_mem {l : List ℚ} (h : l ≠ []) : amax l ∈ l := by
  cases l with
  | nil => exact absurd rfl h
  | cons y ys =>
    rw [amax]
    rcases foldl_max_mem ys y with he | hm
    · rw [he]
      exact List.mem_cons_self y ys
    · exact List.mem_cons_of_mem y hm

/-- numpy.argmax over a Q-value list (DeepQAgent.py line 124): the index
of the first occurrence of the maximum value (numpy's documented
first-occurrence tie rule), i.e. the first index whose entry is at least
the maximum. -/
def argmax (l : List ℚ) : ℕ := l.findIdx (fun x => decide (amax l ≤ x))

lemma argmax_lt_length {l : List ℚ} (h : l ≠ []) : argmax l < l.length :=
  List.findIdx_lt_length_of_exists ⟨amax l, amax_mem h, by simp⟩

lemma getElem?_argmax {l : List ℚ} (h : l ≠ []) :
    l[argmax l]? = some (amax l) := by
  have hlt : argmax l < l.length := argmax_lt_length h
  have hp : (fun x => decide (amax l ≤ x)) (l.get ⟨argmax l, hlt⟩) = true := by
    simpa using @List.findIdx_getElem ℚ (fun x => decide (amax l ≤ x)) l hlt
  have h1 : amax l ≤ l.get ⟨argmax l, hlt⟩ := by simpa using hp
  have h2 : l.get ⟨argmax l, hlt⟩ ≤ amax l := le_amax (l.get_mem _ _)
  rw [List.getElem?_eq_getElem hlt]
  exact congrArg some (le_antisymm h2 h1)

lemma get_lt_amax_of_lt_argmax {l : List ℚ} {j : ℕ} (hj : j < argmax l)
    (hjl : j < l.length) : l.get ⟨j, hjl⟩ < amax l := by
  have hnp := List.not_of_lt_findIdx hj
  have hle : l.get ⟨j, hjl⟩ ≤ amax l := le_amax (l.get_mem _ _)
  have hne : ¬ (amax l ≤ l.get ⟨j, hjl⟩) := by
    simpa [List.get_eq_getElem] using hnp
  exact lt_of_le_of_ne hle (fun he => hne (le_of_eq he.symm))

/-- DeepQAgent.isActionableState (DeepQAgent.py lines 70-96): with the
commented-out alternatives inactive, the agent is actionable exactly when
round_timer differs from the 39208 lockout value.  (The call to
environment.get_action_meaning binds a local that only the commented-out
branches read, so it is dropped.) -/
def isActionableState (info : Info) : Bool :=
  decide (info.round_timer ≠ 39208)

/-- DeepQAgent.getMove (DeepQAgent.py lines 98-125): the designated no-op
when the state is not actionable, a random move when the uniform draw u
(numpy.random.rand(), a value in [0,1)) is at most epsilon, otherwise the
arg-max of the model's prediction on the encoded feature vector (none on
an encoding error).  The noMove parameter is modelled from the spec:
Agent.NO_MOVE is referenced at line 116 but defined in neither source
file, and the spec designates it as a fixed no-op action.  randMove is
the external uniformly random action sample. -/
def getMove {M : Type} (noMove : ℕ) (predict : M → List ℚ → List ℚ) (m : M)
    (eps u : ℚ) (randMove stateSize : ℕ) (info : Info) : Option ℕ :=
  if ¬ isActionableState info then some noMove
  else if u ≤ eps then some randMove
  else (prepareNetworkInputs stateSize info).map (fun s => argmax (predict m s))

/-- The method DeepQAgent.getMove as a state transformer: it returns the
chosen move together with the attribute state, which it leaves untouched —
unlike Agent.getMove (Agent.py line 209), no statement of the DeepQAgent
override assigns self.lastAction. -/
def getMoveS {M : Type} (noMove : ℕ) (predict : M → List ℚ → List ℚ)
    (u : ℚ) (randMove stateSize : ℕ) (info : Info) (st : DQState M) :
    Option ℕ × DQState M :=
  (getMove noMove predict st.model st.epsilon u randMove stateSize info, st)

/-- Claim C8: when the round timer holds the 39208 lockout value, getMove
returns the designated no-op unconditionally: the result is some noMove
and does not depend on the model, the approximator, epsilon, the uniform
draw or the random action — no exploration/exploitation decision is made
and the approximator is never consulted. -/
theorem C8_noop_on_lockout {M M2 : Type} (noMove : ℕ)
    (predict : M → List ℚ → List ℚ) (predict2 : M2 → List ℚ → List ℚ)
    (m : M) (m2 : M2) (eps eps2 u u2 : ℚ)
    (randMove randMove2 stateSize stateSize2 : ℕ)
    (info : Info) (h : info.round_timer = 39208) :
    getMove noMove predict m eps u randMove stateSize info = some noMove
    ∧ getMove noMove predict m eps u randMove stateSize info
      = getMove noMove predict2 m2 eps2 u2 randMove2 stateSize2 info := by
  have hact : isActionableState info = false := by
    simp [isActionableState, h]
  have h1 : getMove noMove predict m eps u randMove stateSize info = some noMove := by
    rw [getMove, if_pos (by simp [hact])]
  have h2 : getMove noMove predict2 m2 eps2 u2 randMove2 stateSize2 info = some noMove := by
    rw [getMove, if_pos (by simp [hact])]
  exact ⟨h1, h1.trans h2.symm⟩

/-- A telemetry mapping carrying the round-timer lockout value. -/
def lockInfo : Info :=
  { goodInfo with round_timer := 39208 }

theorem C8_noop_on_lockout_witness :
    lockInfo.round_timer = 39208
    ∧ getMove 7 predW () 1 0 3 32 lockInfo = some 7 :=
  ⟨rfl, (C8_noop_on_lockout 7 predW predW () () 1 1 0 0 3 3 32 32 lockInfo rfl).1⟩

/-- Claim C7, counterexample: with epsilon 0 and a fixed approximator the
move is not the same on every call: the comparison at line 117 is
rand() <= epsilon and numpy.random.rand can return exactly 0.0, so a call
whose draw is 0 explores (returning the random action, here 0) while a
call whose draw is 1/2 returns the arg-max index 1. -/
theorem C7_argmax_determinism_counterexample :
    getMove 0 predW () 0 0 0 32 goodInfo ≠ getMove 0 predW () 0 (1 / 2) 0 32 goodInfo := by
  have henc : prepareNetworkInputs 32 goodInfo = some fvGood := by decide
  have hL : getMove 0 predW () 0 0 0 32 goodInfo = some 0 := by
    rw [getMove, if_neg (by decide), if_pos (le_refl 0)]
  have hR : getMove 0 predW () 0 (1 / 2) 0 32 goodInfo = some (argmax (predW () fvGood)) := by
    rw [getMove, if_neg (by decide), if_neg (by norm_num), henc]
    rfl
  have hargmax : argmax (predW () fvGood) = 1 := by decide
  rw [hL, hR, hargmax]
  decide

/-- Claim C7, amended: except for the draw u = 0 (possible for
numpy.random.rand under the <= comparison), getMove with epsilon 0 and a
fixed approximator deterministically returns the arg-max index of the
prediction for the encoded feature vector: any two calls with nonzero
draws agree, the returned index is in range, its entry is the maximum
predicted value, and every earlier index holds a strictly smaller value
(first-occurrence tie rule). -/
theorem C7_argmax_determinism_amended {M : Type} (predict : M → List ℚ → List ℚ)
    (m : M) (noMove randMove randMove2 stateSize : ℕ) (u u2 : ℚ) (info : Info)
    (s : List ℚ)
    (hu : 0 < u) (hu2 : 0 < u2)
    (hact : isActionableState info = true)
    (henc : prepareNetworkInputs stateSize info = some s)
    (hne : predict m s ≠ []) :
    getMove noMove predict m 0 u randMove stateSize info
      = some (argmax (predict m s))
    ∧ getMove noMove predict m 0 u randMove stateSize info
      = getMove noMove predict m 0 u2 randMove2 stateSize info
    ∧ argmax (predict m s) < (predict m s).length
    ∧ (predict m s)[argmax (predict m s)]? = some (amax (predict m s))
    ∧ ∀ j : ℕ, j < argmax (predict m s) → ∀ hjl : j < (predict m s).length,
        (predict m s).get ⟨j, hjl⟩ < amax (predict m s) := by
  have hmove : ∀ (v : ℚ) (r : ℕ), 0 < v →
      getMove noMove predict m 0 v r stateSize info = some (argmax (predict m s)) := by
    intro v r hv
    rw [getMove, if_neg (by simp [hact]), if_neg (not_le.mpr hv), henc]
    rfl
  refine ⟨hmove u randMove hu, (hmove u randMove hu).trans (hmove u2 randMove2 hu2).symm,
    argmax_lt_length hne, getElem?_argmax hne, ?_⟩
  intro j hj hjl
  exact get_lt_amax_of_lt_argmax hj hjl

theorem C7_argmax_determinism_amended_witness :
    ((0 : ℚ) < 1 ∧ isActionableState goodInfo = true
      ∧ prepareNetworkInputs 32 goodInfo = some fvGood ∧ predW () fvGood ≠ [])
    ∧ getMove 0 predW () 0 1 0 32 goodInfo = some (argmax (predW () fvGood))
    ∧ getMove 0 predW () 0 1 0 32 goodInfo = getMove 0 predW () 0 2 5 32 goodInfo := by
  have h := C7_argmax_determinism_amended predW () 0 0 5 32 1 2 goodInfo fvGood
    (by norm_num) (by norm_num) (by decide) (by decide) (by decide)
  exact ⟨⟨by norm_num, by decide, by decide, by decide⟩, h.1, h.2.1⟩

/-- Claim C9: recordStep stores the lastAction attribute value as the
appended transition's action field; a recordStep with lastAction still
unset is an AttributeError; the DeepQAgent getMove override leaves
lastAction untouched, so after construction followed by any getMove the
first recordStep still fails. -/
theorem C9_recordStep_lastAction {M : Type} (st : DQState M) (a observation : ℕ)
    (state : Info) (reward : ℚ) (nextObservation : ℕ) (nextState : Info) (done : Bool)
    (noMove : ℕ) (predict : M → List ℚ → List ℚ) (u : ℚ) (randMove stateSize : ℕ)
    (info : Info) (model : M) (eps : ℚ) :
    (st.lastAction = none →
      recordStep st observation state reward nextObservation nextState done = none)
    ∧ (st.lastAction = some a →
      (recordStep st observation state reward nextObservation nextState done).map
          (fun s => s.memory.getLast?)
        = some (some (Transition.mk observation state a reward nextObservation nextState done)))
    ∧ (getMoveS noMove predict u randMove stateSize info st).2.lastAction = st.lastAction
    ∧ recordStep
        ((getMoveS noMove predict u randMove stateSize info (initialState model eps)).2)
        observation state reward nextObservation nextState done = none := by
  refine ⟨?_, ?_, rfl, ?_⟩
  · intro h
    simp [recordStep, h]
  · intro h
    simp only [recordStep, h, Option.map_some']
    rw [dequeAppend]
    split
    · rw [List.getLast?_concat]
    · rw [List.getLast?_concat]
  · simp [recordStep, getMoveS, initialState]

theorem C9_recordStep_lastAction_witness :
    recordStep (initialState () (1 : ℚ)) 0 goodInfo 1 0 goodInfo false = none
    ∧ (recordStep stW 0 goodInfo 1 0 goodInfo false).map (fun s => s.memory.getLast?)
        = some (some (Transition.mk 0 goodInfo 0 1 0 goodInfo false)) := by
  have h1 := C9_recordStep_lastAction (initialState () (1 : ℚ)) 0 0 goodInfo 1 0 goodInfo
    false 0 predW 0 0 32 goodInfo () 1
  have h2 := C9_recordStep_lastAction stW 0 0 goodInfo 1 0 goodInfo
    false 0 predW 0 0 32 goodInfo () 1
  exact ⟨h1.1 rfl, h2.2.1 rfl⟩

end SFDQ
